import Mathlib

/-
Shallow embedding of the gojiutil middleware package (flexera-public/gojiutil).

The middleware definitions are translated from src/unnamed/part_000 (the
current middleware.go, containing EnvAdd, Logger15, Recoverer, FormParser,
RequestID with the random prefix, and GetJSONBody) and from the response
helpers (ErrorString, Errorf, http.Error) in the gojiutil response-writing
file.  Ambient effects of the Go runtime are modelled as explicit inputs:
the raw stack trace text captured by runtime.Stack is a String parameter,
the elapsed-time string is a String parameter, the random startup value of
reqPrefix is a String parameter, and the outcome of json.Decode /
r.ParseForm on the request body is a field of the request.  Machine int64
arithmetic (the atomic request-ID counter) is modelled as Int with explicit
two's-complement wraparound.  A Go panic is modelled as an explicit outcome
constructor that propagates through middleware that does not recover it.
-/

namespace Gojiutil

/-- Values stored in the goji per-request environment c.Env, which is a Go
map[string]interface{}.  The constructors cover the dynamic types the
middlewares store or inspect: strings, string slices (stack traces), and
decoded JSON objects (a nil map is jsonV none). -/
inductive GoVal where
  | str (s : String)
  | strList (l : List String)
  | jsonV (js : Option (List (String × String)))
  deriving DecidableEq

/-- The goji per-request environment c.Env (a Go map, shared by reference). -/
abbrev Env := String → Option GoVal

/-- Map update: c.Env[k] = v. -/
def envSet (e : Env) (k : String) (v : GoVal) : Env :=
  fun k' => if k' = k then some v else e k'

/-- State of an http.ResponseWriter: the status code written (none while no
header has been written), the accumulated body, and the response headers. -/
structure RW where
  status : Option Nat
  body : String
  hdrs : List (String × String)
  deriving DecidableEq

/-- rw.Header().Set(k, v). -/
def RW.setHeader (rw : RW) (k v : String) : RW :=
  { rw with hdrs := (k, v) :: rw.hdrs.filter (fun kv => kv.1 ≠ k) }

/-- rw.WriteHeader(code): in net/http a second call to WriteHeader is a
superfluous no-op, so the first written status wins. -/
def RW.writeHeader (rw : RW) (code : Nat) : RW :=
  match rw.status with
  | some _ => rw
  | none => { rw with status := some code }

/-- rw.Write(s): an implicit WriteHeader(200) happens if no header has been
written yet, then the bytes are appended to the body. -/
def RW.write (rw : RW) (s : String) : RW :=
  let rw' := rw.writeHeader 200
  { rw' with body := rw'.body ++ s }

/-- A fresh response writer (nothing written yet). -/
def rw0 : RW := RW.mk none "" []

/-- http.Error(rw, msg, code): sets the plain-text content type, writes the
header, then writes the message followed by a newline (fmt.Fprintln). -/
def httpError (rw : RW) (msg : String) (code : Nat) : RW :=
  ((rw.setHeader "Content-Type" "text/plain; charset=utf-8").writeHeader code).write (msg ++ "\n")

/-- Outcome of json.NewDecoder(r.Body).Decode(&js): io.EOF for an absent
body, success with the decoded map (none models a nil map), or any other
decoding error with its message. -/
inductive DecodeResult where
  | eof
  | ok (js : Option (List (String × String)))
  | fail (msg : String)
  deriving DecidableEq

/-- An inbound *http.Request as the middlewares consume it.  headers models
r.Header.Get (empty string when absent); formErr models the outcome of
r.ParseForm(); jsonDecode models the outcome of decoding the body as JSON. -/
structure Request where
  method : String
  path : String
  remoteAddr : String
  headers : String → String
  formErr : Option String
  jsonDecode : DecodeResult

/-- log15 levels used by Logger15. -/
inductive Lvl where
  | crit
  | warn
  | info
  deriving DecidableEq

/-- One record emitted to the log15 logger: level, message (the request
path), and the flat key/value context list. -/
structure LogRecord where
  lvl : Lvl
  msg : String
  ctx : List (String × String)
  deriving DecidableEq

/-- Mutable state threaded through a middleware chain: the goji c.Env, the
response writer, and the records emitted to the logger so far. -/
structure HState where
  env : Env
  rw : RW
  logs : List LogRecord

/-- Result of running a handler: normal return, or a Go panic carrying the
panic value (shown as a string) and the state at the moment of the panic. -/
inductive HOut where
  | ok (st : HState)
  | panicked (msg : String) (st : HState)

/-- An http.Handler. -/
abbrev Handler := Request → HState → HOut

/-- State reached by a handler outcome (whether or not it panicked). -/
def hoState : HOut → HState
  | HOut.ok st => st
  | HOut.panicked _ st => st

/-- Log records of a handler outcome. -/
def hoLogs : HOut → List LogRecord
  | HOut.ok st => st.logs
  | HOut.panicked _ st => st.logs

/-- The empty c.Env. -/
def emptyEnv : Env := fun _ => none

/-- A pristine handler state. -/
def hstate0 : HState := HState.mk emptyEnv rw0 []

/-- A handler that does nothing. -/
def nopHandler : Handler := fun _ st => HOut.ok st

/-- A handler that marks c.Env to witness that it was invoked. -/
def markH : Handler := fun _ st => HOut.ok { st with env := envSet st.env "called" (GoVal.str "yes") }

/-- A handler that panics immediately. -/
def panicH : Handler := fun _ st => HOut.panicked "boom" st

/-- var RequestIDHeader = "X-Request-Id". -/
def RequestIDHeader : String := "X-Request-Id"

/-- goji's middleware.RequestIDKey, the c.Env key under which the request
identifier is stored. -/
def RequestIDKey : String := "reqID"

/-- goji's middleware.GetReqID(c): the request identifier from c.Env, or ""
when absent or not a string. -/
def GetReqID (env : Env) : String :=
  match env RequestIDKey with
  | some (GoVal.str s) => s
  | _ => ""

/-- ErrorString(c, rw, code, str): records the error in c.Env["err"], then
writes a text/plain error response; for codes >= 500 only a generic message
naming the request ID is written and the detail stays in the log context. -/
def ErrorString (env : Env) (rw : RW) (code : Nat) (str : String) : Env × RW :=
  let env' := envSet env "err" (GoVal.str str)
  if 500 ≤ code then
    (env', httpError rw ("Internal Error (request ID: " ++ GetReqID env' ++ ")") code)
  else
    (env', httpError rw str code)

/-- Errorf(c, rw, code, message, args...): fmt.Sprintf is ambient, so the
model receives the already-formatted string and calls ErrorString. -/
def Errorf (env : Env) (rw : RW) (code : Nat) (formatted : String) : Env × RW :=
  ErrorString env rw code formatted

/-- The package-global request-ID state: reqPrefix (named reqPref here; a
random string computed once by init()) and the int64 counter reqID. -/
structure Proc where
  reqPref : String
  reqID : Int
  deriving DecidableEq

/-- Reduction of an integer into signed two's-complement int64 range. -/
def int64wrap (n : Int) : Int := (n + 2 ^ 63) % 2 ^ 64 - 2 ^ 63

/-- atomic.AddInt64(&c, d): Go int64 addition wraps around on overflow. -/
def addInt64 (c d : Int) : Int := int64wrap (c + d)

/-- The process state produced by init(): reqPrefix is computed once from
crypto/rand (modelled as the parameter pfx) and the counter starts at 0. -/
def initProc (pfx : String) : Proc := Proc.mk pfx 0

/-- RequestID middleware: use the RequestIDHeader header value when present,
otherwise generate fmt.Sprintf("%s-%d", reqPrefix, atomic.AddInt64(&reqID, 1)),
store it in c.Env[middleware.RequestIDKey], then invoke the next handler. -/
def RequestID (p : Proc) (r : Request) (h : Handler) (st : HState) : Proc × HOut :=
  let idh := r.headers RequestIDHeader
  if idh = "" then
    let n := addInt64 p.reqID 1
    let id := p.reqPref ++ "-" ++ toString n
    ({ p with reqID := n }, h r { st with env := envSet st.env RequestIDKey (GoVal.str id) })
  else
    (p, h r { st with env := envSet st.env RequestIDKey (GoVal.str idh) })

/-- A request carrying only a RequestIDHeader value (used to drive traces of
the RequestID middleware). -/
def mkReq (hdr : String) : Request :=
  { method := "GET", path := "/", remoteAddr := "",
    headers := fun k => if k = RequestIDHeader then hdr else "",
    formErr := none, jsonDecode := DecodeResult.eof }

/-- Process state after a sequence of RequestID invocations, one per header
value in the list (the only code that touches reqPrefix and reqID). -/
def procAfter (p : Proc) : List String → Proc
  | [] => p
  | hdr :: rest => procAfter (RequestID p (mkReq hdr) nopHandler hstate0).1 rest

/-- Number of requests in a trace that carry no request-ID header (and hence
take the fallback generation path). -/
def nEmpty (l : List String) : Nat := (l.filter (fun s => s == "")).length

/-- EnvAdd(m) middleware: merge the map m into c.Env, then invoke the next
handler. -/
def EnvAdd (m : List (String × GoVal)) (r : Request) (h : Handler) (st : HState) : HOut :=
  h r { st with env := m.foldl (fun e kv => envSet e kv.1 kv.2) st.env }

/-- FormParser middleware: on a ParseForm error respond with 400 and the
error message via ErrorString and stop; otherwise invoke the next handler. -/
def FormParser (r : Request) (h : Handler) (st : HState) : HOut :=
  match r.formErr with
  | some m =>
    let p := ErrorString st.env st.rw 400 m
    HOut.ok { st with env := p.1, rw := p.2 }
  | none => h r st

/-- Recoverer middleware: run the handler; on a panic, store the split stack
trace minus its first three lines in c.Env["stack"] and respond through
Errorf(c, rw, 500, "panic: %v", err).  The raw runtime.Stack text is the
stackRaw parameter. -/
def Recoverer (stackRaw : String) (r : Request) (h : Handler) (st : HState) : HOut :=
  match h r st with
  | HOut.ok st' => HOut.ok st'
  | HOut.panicked msg st' =>
    let lines := stackRaw.splitOn "\n"
    let env1 := envSet st'.env "stack" (GoVal.strList (lines.drop 3))
    let p := Errorf env1 st'.rw 500 ("panic: " ++ msg)
    HOut.ok { st' with env := p.1, rw := p.2 }

/-- strings.Index(s, c) for a single character: byte index of the first
occurrence, or -1 when absent. -/
def strIndex (s : String) (c : Char) : Int :=
  if s.contains c then ((s.toList.takeWhile (fun a => a ≠ c)).length : Int) else -1

/-- Go slicing s[:n]: none models the runtime panic on a negative or
out-of-range bound. -/
def goSliceTo (s : String) (n : Int) : Option String :=
  if 0 ≤ n ∧ n ≤ (s.length : Int) then some (s.take n.toNat) else none

/-- The Logger15 stack-formatting loop (const levels = 3): for each level i
with 2*i+1 < len(s), emit ("stack<i>", funcName ++ " @ " ++ sourceLine)
where funcName is s[2i][:strings.Index(s[2i], "(")] and sourceLine is
s[2i+1] with leading tabs trimmed.  none models the Go slice panic that
occurs when a consulted line contains no "(". -/
def stackLoop (s : List String) : Nat → Nat → Option (List (String × String))
  | _, 0 => some []
  | i, fuel + 1 =>
    if 2 * i + 1 < s.length then
      let line := s.getD (2 * i) ""
      match goSliceTo line (strIndex line '(') with
      | none => none
      | some funcName =>
        let src := (s.getD (2 * i + 1) "").dropWhile (fun ch => ch == '\t')
        match stackLoop s (i + 1) fuel with
        | none => none
        | some rest => some (("stack" ++ toString i, funcName ++ " @ " ++ src) :: rest)
    else some []

/-- The Logger15 treatment of a []string stack value: reading s[0] panics on
an empty slice (none); a leading "goroutine" line is stripped together with
the next two lines when len(s) > 3; then the level loop runs. -/
def stackCtx (s : List String) : Option (List (String × String)) :=
  if s.length = 0 then none
  else
    let s' := if (s.getD 0 "").startsWith "goroutine" = true ∧ 3 < s.length then s.drop 3 else s
    stackLoop s' 0 3

/-- Context pairs contributed by c.Env["stack"] for a status >= 500: a
string value is logged directly, a []string value goes through the level
loop (none models the panic), any other value contributes nothing. -/
def stackExtra : Option GoVal → Option (List (String × String))
  | some (GoVal.str stk) => some [("stack", stk)]
  | some (GoVal.strList l) => stackCtx l
  | _ => some []

/-- Whether the stack value in c.Env can be formatted without panicking. -/
def stackEnvOK (v : Option GoVal) : Bool := (stackExtra v).isSome

/-- Level selected by Logger15 from the response status. -/
def lvlOf (s : Nat) : Lvl := if 500 ≤ s then Lvl.crit else if 400 ≤ s then Lvl.warn else Lvl.info

/-- Request-side context recorded before the handler runs: verb, then the
request ID when present, then the remote IP when present. -/
def reqCtx (r : Request) (env : Env) : List (String × String) :=
  let c := [("verb", r.method)]
  let c := if GetReqID env ≠ "" then c ++ [("id", GetReqID env)] else c
  if r.remoteAddr ≠ "" then c ++ [("ip", r.remoteAddr)] else c

/-- Response-side context recorded after the handler runs: elapsed time,
status, and c.Env["err"] when it holds a string. -/
def respCtx (elapsed : String) (s : Nat) (env' : Env) : List (String × String) :=
  let c := [("time", elapsed), ("status", toString s)]
  match env' "err" with
  | some (GoVal.str e) => c ++ [("err", e)]
  | _ => c

/-- Merge of the mutil.WrapWriter view back into the underlying writer: the
wrapped handler's writes pass through, and an already-written outer status
wins over a later WriteHeader. -/
def mergeRW (outer inner : RW) : RW :=
  RW.mk (match outer.status with | some s => some s | none => inner.status)
    (outer.body ++ inner.body) (outer.hdrs ++ inner.hdrs)

/-- Context pairs appended for the Crit branch (empty below 500). -/
def critExtra (s : Nat) (v : Option GoVal) : List (String × String) :=
  if 500 ≤ s then (stackExtra v).getD [] else []

/-- Logger15(logger) middleware: build the request context, run the handler
under a mutil.WrapWriter (modelled as a fresh writer merged back), append
time/status/err context, and emit exactly one record — Crit with stack
context for status >= 500, Warn for >= 400, Info otherwise.  A panic in the
handler propagates (no recover here), and the stack loop itself panics on a
malformed []string stack value. -/
def Logger15 (elapsed : String) (r : Request) (h : Handler) (st : HState) : HOut :=
  let ctx := reqCtx r st.env
  let path := r.path
  match h r { st with rw := rw0 } with
  | HOut.panicked m st' => HOut.panicked m { st' with rw := mergeRW st.rw st'.rw }
  | HOut.ok st' =>
    let s := st'.rw.status.getD 0
    let ctx := ctx ++ respCtx elapsed s st'.env
    let rwm := mergeRW st.rw st'.rw
    if 500 ≤ s then
      match stackExtra (st'.env "stack") with
      | none => HOut.panicked "runtime error: slice bounds out of range" { st' with rw := rwm }
      | some extra =>
        HOut.ok { st' with rw := rwm, logs := st'.logs ++ [LogRecord.mk Lvl.crit path (ctx ++ extra)] }
    else if 400 ≤ s then
      HOut.ok { st' with rw := rwm, logs := st'.logs ++ [LogRecord.mk Lvl.warn path ctx] }
    else
      HOut.ok { st' with rw := rwm, logs := st'.logs ++ [LogRecord.mk Lvl.info path ctx] }

/-- strconv.Atoi: optional sign followed by digits; none models an error. -/
def goAtoi (s : String) : Option Int :=
  if s.startsWith "+" then ((s.drop 1).toNat?).map (fun n => (n : Int))
  else s.toInt?

/-- Message text of a strconv.Atoi syntax error. -/
def atoiErrMsg (s : String) : String := "strconv.Atoi: parsing \"" ++ s ++ "\": invalid syntax"

/-- GetJSONBody middleware: reject an unparseable content-length or a
content-type other than application/json with 400; decode the body, where
io.EOF is tolerated only for a zero content-length; store the decoded value
in c.Env["json"] and invoke the next handler. -/
def GetJSONBody (r : Request) (h : Handler) (st : HState) : HOut :=
  let clh := r.headers "content-length"
  match (if clh = "" then some (0 : Int) else goAtoi clh) with
  | none =>
    let p := ErrorString st.env st.rw 400 ("Invalid content-length: " ++ atoiErrMsg clh)
    HOut.ok { st with env := p.1, rw := p.2 }
  | some cl =>
    let ct := r.headers "content-type"
    if ct ≠ "" ∧ ct ≠ "application/json" then
      let p := ErrorString st.env st.rw 400 ("Invalid content-type '" ++ ct ++ "', application/json expected")
      HOut.ok { st with env := p.1, rw := p.2 }
    else
      match r.jsonDecode with
      | DecodeResult.eof =>
        if cl ≠ 0 then
          let p := ErrorString st.env st.rw 400 "Premature EOF reading post body"
          HOut.ok { st with env := p.1, rw := p.2 }
        else h r { st with env := envSet st.env "json" (GoVal.jsonV none) }
      | DecodeResult.ok js => h r { st with env := envSet st.env "json" (GoVal.jsonV js) }
      | DecodeResult.fail m =>
        let p := ErrorString st.env st.rw 400 ("Cannot parse JSON request body: " ++ m)
        HOut.ok { st with env := p.1, rw := p.2 }

/-- A bodyless request whose content-type is not application/json. -/
def reqCT : Request :=
  { method := "POST", path := "/", remoteAddr := "",
    headers := fun k => if k = "content-type" then "text/plain" else "",
    formErr := none, jsonDecode := DecodeResult.eof }

/-- A request whose form body fails to parse. -/
def reqF : Request :=
  { method := "POST", path := "/", remoteAddr := "",
    headers := fun _ => "",
    formErr := some "bad form", jsonDecode := DecodeResult.eof }

/- Basic lemmas about the environment, the writer, and the error helpers. -/

theorem envSet_self (e : Env) (k : String) (v : GoVal) : envSet e k v k = some v := by
  simp [envSet]

theorem envSet_ne (e : Env) (k k' : String) (v : GoVal) (h : k' ≠ k) :
    envSet e k v k' = e k' := by
  simp [envSet, h]

theorem getReqID_envSet (e : Env) (k : String) (v : GoVal) (hk : RequestIDKey ≠ k) :
    GetReqID (envSet e k v) = GetReqID e := by
  unfold GetReqID
  rw [envSet_ne e k RequestIDKey v hk]

theorem httpError_body (rw : RW) (msg : String) (code : Nat) :
    (httpError rw msg code).body = rw.body ++ (msg ++ "\n") := by
  rcases rw with ⟨s, b, hs⟩
  cases s <;> simp [httpError, RW.write, RW.writeHeader, RW.setHeader]

theorem httpError_status_none (rw : RW) (msg : String) (code : Nat) (h : rw.status = none) :
    (httpError rw msg code).status = some code := by
  rcases rw with ⟨s, b, hs⟩
  simp only at h
  subst h
  simp [httpError, RW.write, RW.writeHeader, RW.setHeader]

theorem errorString_env (env : Env) (rw : RW) (code : Nat) (s : String) :
    (ErrorString env rw code s).1 = envSet env "err" (GoVal.str s) := by
  unfold ErrorString
  by_cases h : 500 ≤ code <;> simp [h]

theorem errorString_rw_ge (env : Env) (rw : RW) (code : Nat) (s : String) (h : 500 ≤ code) :
    (ErrorString env rw code s).2 =
      httpError rw ("Internal Error (request ID: " ++ GetReqID env ++ ")") code := by
  unfold ErrorString
  rw [if_pos h]
  simp only
  rw [getReqID_envSet env "err" (GoVal.str s) (by decide)]

theorem errorString_rw_lt (env : Env) (rw : RW) (code : Nat) (s : String) (h : code < 500) :
    (ErrorString env rw code s).2 = httpError rw s code := by
  unfold ErrorString
  rw [if_neg (by omega)]

/-- C1: for every request in which the wrapped handler panics, the Recoverer
middleware catches the panic — the outcome is a normal return, not a
propagated panic — and an HTTP 500 error response is written through
Errorf: c.Env["err"] is set to "panic: <value>", the generic internal-error
body is appended to the response, and when the handler had not yet written
a header the response status becomes 500. -/
theorem recoverer_recovers (stackRaw : String) (r : Request) (h : Handler)
    (st st' : HState) (msg : String)
    (hp : h r st = HOut.panicked msg st') :
    ∃ st2, Recoverer stackRaw r h st = HOut.ok st2 ∧
      st2.env "err" = some (GoVal.str ("panic: " ++ msg)) ∧
      st2.rw.body = st'.rw.body ++ ("Internal Error (request ID: " ++ GetReqID st'.env ++ ")" ++ "\n") ∧
      (st'.rw.status = none → st2.rw.status = some 500) := by
  unfold Recoverer
  rw [hp]
  refine ⟨_, rfl, ?_, ?_, ?_⟩
  · simp [Errorf, errorString_env, envSet_self]
  · simp only [Errorf, errorString_rw_ge _ _ _ _ (le_refl 500), httpError_body]
    rw [getReqID_envSet st'.env "stack" (GoVal.strList ((stackRaw.splitOn "\n").drop 3))
      (by decide)]
  · intro h0
    simp [Errorf, errorString_rw_ge _ _ _ _ (le_refl 500), httpError_status_none _ _ _ h0]

/-- Witness for C1 at a concrete panicking handler. -/
theorem recoverer_recovers_witness :
    (panicH (mkReq "") hstate0 = HOut.panicked "boom" hstate0) ∧
    (∃ st2, Recoverer "g\nl1\nl2\nf(x)\n\tsrc.go:1" (mkReq "") panicH hstate0 = HOut.ok st2 ∧
      st2.env "err" = some (GoVal.str ("panic: " ++ "boom")) ∧
      st2.rw.body = hstate0.rw.body ++ ("Internal Error (request ID: " ++ GetReqID hstate0.env ++ ")" ++ "\n") ∧
      (hstate0.rw.status = none → st2.rw.status = some 500)) :=
  ⟨rfl, recoverer_recovers "g\nl1\nl2\nf(x)\n\tsrc.go:1" (mkReq "") panicH hstate0 hstate0 "boom" rfl⟩

/-- C3: for every request, the RequestID middleware stores an identifier in
c.Env under middleware.RequestIDKey before invoking the next handler — the
RequestIDHeader value when non-empty, otherwise one generated from the
shared counter. -/
theorem requestID_stores_id (p : Proc) (r : Request) (h : Handler) (st : HState) :
    (RequestID p r h st).2 = h r { st with env := envSet st.env RequestIDKey (GoVal.str
      (if r.headers RequestIDHeader = "" then p.reqPref ++ "-" ++ toString (addInt64 p.reqID 1)
       else r.headers RequestIDHeader)) } := by
  unfold RequestID
  by_cases hh : r.headers RequestIDHeader = "" <;> simp [hh]

/-- C8: for every call of ErrorString with a status code >= 500, the
response written is the generic internal-error body naming the request ID
and does not depend on the detail string (two calls differing only in the
detail produce identical writer states), while c.Env["err"] is still set to
the exact detail string. -/
theorem errorString_500_generic (env : Env) (rw : RW) (code : Nat) (s1 s2 : String)
    (hc : 500 ≤ code) :
    (ErrorString env rw code s1).2 = (ErrorString env rw code s2).2 ∧
    (ErrorString env rw code s1).1 "err" = some (GoVal.str s1) ∧
    (ErrorString env rw code s1).2.body =
      rw.body ++ ("Internal Error (request ID: " ++ GetReqID env ++ ")" ++ "\n") := by
  refine ⟨?_, ?_, ?_⟩
  · rw [errorString_rw_ge env rw code s1 hc, errorString_rw_ge env rw code s2 hc]
  · rw [errorString_env]
    exact envSet_self env "err" (GoVal.str s1)
  · rw [errorString_rw_ge env rw code s1 hc, httpError_body]

/- Lemmas about RequestID traces and the int64 counter. -/

theorem mkReq_hdr (hdr : String) : (mkReq hdr).headers RequestIDHeader = hdr := by
  simp [mkReq]

theorem requestID_fst (p : Proc) (hdr : String) (h : Handler) (st : HState) :
    (RequestID p (mkReq hdr) h st).1 =
      if hdr = "" then { p with reqID := addInt64 p.reqID 1 } else p := by
  unfold RequestID
  rw [mkReq_hdr]
  by_cases hh : hdr = "" <;> simp [hh]

theorem procAfter_pref (hdrs : List String) : ∀ p : Proc,
    (procAfter p hdrs).reqPref = p.reqPref := by
  induction hdrs with
  | nil => intro p; rfl
  | cons hdr rest ih =>
    intro p
    simp only [procAfter]
    rw [ih, requestID_fst]
    by_cases hh : hdr = "" <;> simp [hh]

theorem nEmpty_cons (hdr : String) (rest : List String) :
    nEmpty (hdr :: rest) = nEmpty rest + (if hdr = "" then 1 else 0) := by
  by_cases hh : hdr = "" <;> simp [nEmpty, hh]

theorem nEmpty_append (a b : List String) : nEmpty (a ++ b) = nEmpty a + nEmpty b := by
  simp [nEmpty, List.filter_append]

theorem addInt64_small (c : Int) (h0 : 0 ≤ c) (h1 : c + 1 < 2 ^ 63) :
    addInt64 c 1 = c + 1 := by
  have hp : (2 : Int) ^ 63 = 9223372036854775808 := by norm_num
  have hq : (2 : Int) ^ 64 = 18446744073709551616 := by norm_num
  unfold addInt64 int64wrap
  rw [hp] at h1
  rw [hp, hq]
  omega

theorem int64wrap_step (x : Int) : addInt64 (int64wrap x) 1 = int64wrap (x + 1) := by
  have hp : (2 : Int) ^ 63 = 9223372036854775808 := by norm_num
  have hq : (2 : Int) ^ 64 = 18446744073709551616 := by norm_num
  unfold addInt64 int64wrap
  rw [hp, hq]
  omega

theorem int64wrap_zero : int64wrap 0 = 0 := by
  unfold int64wrap
  norm_num

theorem procAfter_count (hdrs : List String) : ∀ p : Proc, 0 ≤ p.reqID →
    p.reqID + (nEmpty hdrs : Int) < 2 ^ 63 →
    (procAfter p hdrs).reqID = p.reqID + (nEmpty hdrs : Int) := by
  induction hdrs with
  | nil =>
    intro p h0 hb
    simp [procAfter, nEmpty]
  | cons hdr rest ih =>
    intro p h0 hb
    rw [nEmpty_cons] at hb ⊢
    simp only [procAfter]
    rw [requestID_fst]
    by_cases hh : hdr = ""
    · rw [if_pos hh] at hb ⊢
      push_cast at hb ⊢
      have hcast : (0 : Int) ≤ (nEmpty rest : Int) := Int.ofNat_nonneg _
      have hstep : addInt64 p.reqID 1 = p.reqID + 1 := addInt64_small p.reqID h0 (by omega)
      rw [hstep]
      have := ih { p with reqID := p.reqID + 1 } (by simp; omega) (by simp; omega)
      simp only at this
      rw [this, if_pos hh]
      omega
    · rw [if_neg hh] at hb ⊢
      push_cast at hb ⊢
      have := ih p h0 (by omega)
      rw [this, if_neg hh]
      omega

theorem procAfter_append (l1 l2 : List String) : ∀ p,
    procAfter p (l1 ++ l2) = procAfter (procAfter p l1) l2 := by
  induction l1 with
  | nil => intro p; rfl
  | cons hdr rest ih =>
    intro p
    simp only [List.cons_append, procAfter]
    exact ih _

theorem procAfter_rep (n : Nat) : ∀ (pfx : String) (x : Int),
    procAfter (Proc.mk pfx (int64wrap x)) (List.replicate n "") =
      Proc.mk pfx (int64wrap (x + n)) := by
  induction n with
  | zero =>
    intro pfx x
    simp [procAfter]
  | succ n ih =>
    intro pfx x
    rw [List.replicate_succ]
    simp only [procAfter]
    rw [requestID_fst, if_pos rfl]
    simp only
    rw [int64wrap_step]
    have := ih pfx (x + 1)
    rw [this]
    have harg : x + 1 + (n : Int) = x + ((n : Nat) + 1 : Nat) := by push_cast; omega
    rw [harg]

/-- C4 (amended): over any sequence of RequestID invocations in which fewer
than 2^63 requests take the fallback-generation path, the counter is
non-decreasing, and the counter value taken at one fallback generation is
strictly below the value taken at any later fallback generation (so two
distinct fallback-generated identifiers use distinct counter values).  The
bound is forced by int64 wraparound of atomic.AddInt64. -/
theorem requestID_counter_mono :
    (∀ (pfx : String) (hdrs ext : List String), ((nEmpty (hdrs ++ ext) : Int) < 2 ^ 63) →
      (procAfter (initProc pfx) hdrs).reqID ≤ (procAfter (initProc pfx) (hdrs ++ ext)).reqID) ∧
    (∀ (pfx : String) (l1 l2 : List String),
      ((nEmpty (l1 ++ "" :: l2 ++ [""]) : Int) < 2 ^ 63) →
      (procAfter (initProc pfx) (l1 ++ [""])).reqID <
        (procAfter (initProc pfx) (l1 ++ "" :: l2 ++ [""])).reqID) := by
  have h00 : ∀ pfx : String, (initProc pfx).reqID = 0 := fun _ => rfl
  constructor
  · intro pfx hdrs ext hb
    rw [nEmpty_append] at hb
    push_cast at hb
    have hc : (0 : Int) ≤ (nEmpty hdrs : Int) := Int.ofNat_nonneg _
    have hd : (0 : Int) ≤ (nEmpty ext : Int) := Int.ofNat_nonneg _
    rw [procAfter_count hdrs (initProc pfx) (by rw [h00]) (by rw [h00]; omega)]
    rw [procAfter_count (hdrs ++ ext) (initProc pfx) (by rw [h00])
      (by rw [h00, nEmpty_append]; push_cast; omega)]
    rw [h00, nEmpty_append]
    push_cast
    omega
  · intro pfx l1 l2 hb
    have he1 : nEmpty (l1 ++ [""]) = nEmpty l1 + 1 := by
      rw [nEmpty_append]; simp [nEmpty]
    have he2 : nEmpty (l1 ++ "" :: l2 ++ [""]) = nEmpty l1 + 1 + nEmpty l2 + 1 := by
      rw [nEmpty_append, nEmpty_cons, nEmpty_append]
      simp [nEmpty]
      omega
    rw [he2] at hb
    push_cast at hb
    have hc : (0 : Int) ≤ (nEmpty l1 : Int) := Int.ofNat_nonneg _
    have hd : (0 : Int) ≤ (nEmpty l2 : Int) := Int.ofNat_nonneg _
    rw [procAfter_count (l1 ++ [""]) (initProc pfx) (by rw [h00])
      (by rw [h00, he1]; push_cast; omega)]
    rw [procAfter_count (l1 ++ "" :: l2 ++ [""]) (initProc pfx) (by rw [h00])
      (by rw [h00, he2]; push_cast; omega)]
    rw [h00, he1, he2]
    push_cast
    omega

/-- Witness for C4 (amended) on a three-request trace. -/
theorem requestID_counter_mono_witness :
    ((nEmpty (([] : List String) ++ "" :: ([] : List String) ++ [""]) : Int) < 2 ^ 63) ∧
    (procAfter (initProc "p") (([] : List String) ++ [""])).reqID <
      (procAfter (initProc "p") (([] : List String) ++ "" :: ([] : List String) ++ [""])).reqID :=
  ⟨by norm_num [nEmpty], requestID_counter_mono.2 "p" [] [] (by norm_num [nEmpty])⟩

/-- Counterexample for C4 as stated: with no bound on the number of
invocations, the int64 counter wraps.  After 9223372036854775807 = 2^63 - 1
fallback generations the counter holds 2^63 - 1, and the next fallback
generation makes it negative, so the counter is not strictly increasing
over every sequence of RequestID invocations. -/
theorem requestID_counter_cex :
    (procAfter (initProc "") (List.replicate 9223372036854775807 "" ++ [""])).reqID <
    (procAfter (initProc "") (List.replicate 9223372036854775807 "")).reqID := by
  have h0 : initProc "" = Proc.mk "" (int64wrap 0) := by
    rw [int64wrap_zero]
    rfl
  rw [h0, procAfter_append, procAfter_rep]
  simp only [procAfter]
  rw [requestID_fst, if_pos rfl]
  simp only
  rw [int64wrap_step]
  have hp : (2 : Int) ^ 63 = 9223372036854775808 := by norm_num
  have hq : (2 : Int) ^ 64 = 18446744073709551616 := by norm_num
  unfold int64wrap
  rw [hp, hq]
  push_cast

/-- C5: the random prefix is part of the process state computed once by
init() and no RequestID invocation ever modifies it, and every
fallback-generated identifier (produced when the request carries no
RequestIDHeader value) is the prefix, a dash, then the counter value taken
for this request. -/
theorem requestID_pref_invariant :
    (∀ (pfx : String) (hdrs : List String), (procAfter (initProc pfx) hdrs).reqPref = pfx) ∧
    (∀ (p : Proc) (r : Request) (h : Handler) (st : HState),
      r.headers RequestIDHeader = "" →
      (RequestID p r h st).1.reqPref = p.reqPref ∧
      (RequestID p r h st).2 = h r { st with env := envSet st.env RequestIDKey (GoVal.str
        (p.reqPref ++ "-" ++ toString (addInt64 p.reqID 1))) }) := by
  constructor
  · intro pfx hdrs
    rw [procAfter_pref]
    rfl
  · intro p r h st hh
    unfold RequestID
    constructor <;> simp [hh]

/-- Witness for C5 at a concrete request without a request-ID header. -/
theorem requestID_pref_invariant_witness :
    ((mkReq "").headers RequestIDHeader = "") ∧
    ((RequestID (initProc "pfx") (mkReq "") nopHandler hstate0).1.reqPref = (initProc "pfx").reqPref ∧
     (RequestID (initProc "pfx") (mkReq "") nopHandler hstate0).2 = nopHandler (mkReq "")
       { hstate0 with env := envSet hstate0.env RequestIDKey (GoVal.str
         ((initProc "pfx").reqPref ++ "-" ++ toString (addInt64 (initProc "pfx").reqID 1))) }) :=
  ⟨by simp [mkReq],
   requestID_pref_invariant.2 (initProc "pfx") (mkReq "") nopHandler hstate0 (by simp [mkReq])⟩

/-- Witness for C8 at two concrete detail strings. -/
theorem errorString_500_generic_witness :
    ((500 : Nat) ≤ 500) ∧
    ((ErrorString emptyEnv rw0 500 "secret A").2 = (ErrorString emptyEnv rw0 500 "secret B").2 ∧
     (ErrorString emptyEnv rw0 500 "secret A").1 "err" = some (GoVal.str "secret A") ∧
     (ErrorString emptyEnv rw0 500 "secret A").2.body =
       rw0.body ++ ("Internal Error (request ID: " ++ GetReqID emptyEnv ++ ")" ++ "\n")) :=
  ⟨by decide, errorString_500_generic emptyEnv rw0 500 "secret A" "secret B" (by decide)⟩

/- Lemmas about Logger15. -/

theorem logger15_run (elapsed : String) (r : Request) (h : Handler) (st st' : HState)
    (hok : h r { st with rw := rw0 } = HOut.ok st')
    (hstk : 500 ≤ st'.rw.status.getD 0 → stackEnvOK (st'.env "stack") = true) :
    Logger15 elapsed r h st = HOut.ok (HState.mk st'.env (mergeRW st.rw st'.rw)
      (st'.logs ++ [LogRecord.mk (lvlOf (st'.rw.status.getD 0)) r.path
        (reqCtx r st.env ++ respCtx elapsed (st'.rw.status.getD 0) st'.env ++
          critExtra (st'.rw.status.getD 0) (st'.env "stack"))])) := by
  simp only [Logger15, hok]
  by_cases h5 : 500 ≤ st'.rw.status.getD 0
  · rw [if_pos h5]
    cases hS : stackExtra (st'.env "stack") with
    | none =>
      exfalso
      have hT := hstk h5
      rw [stackEnvOK, hS] at hT
      simp at hT
    | some extra =>
      simp [lvlOf, critExtra, h5, hS]
  · rw [if_neg h5]
    by_cases h4 : 400 ≤ st'.rw.status.getD 0
    · rw [if_pos h4]
      simp [lvlOf, critExtra, h5, h4]
    · rw [if_neg h4]
      simp [lvlOf, critExtra, h5, h4]

/-- C2 (amended): for every request in which the handler chain below
Logger15 returns without panicking, and in which — when the final status is
at least 500 — the c.Env["stack"] value can be formatted without the stack
loop panicking (as holds for the values Recoverer stores), the middleware
produced by Logger15 emits exactly one log record: at level Crit when the
status is >= 500, Warn when >= 400 and < 500, Info otherwise.  The
amendments are forced because a panic below Logger15 propagates before any
record is emitted, and because the >= 500 stack formatting can itself panic
on a malformed []string stack value. -/
theorem logger15_one_record (elapsed : String) (r : Request) (h : Handler) (st st' : HState)
    (hok : h r { st with rw := rw0 } = HOut.ok st')
    (hstk : 500 ≤ st'.rw.status.getD 0 → stackEnvOK (st'.env "stack") = true) :
    ∃ ctx, Logger15 elapsed r h st = HOut.ok (HState.mk st'.env (mergeRW st.rw st'.rw)
      (st'.logs ++ [LogRecord.mk (lvlOf (st'.rw.status.getD 0)) r.path ctx])) :=
  ⟨_, logger15_run elapsed r h st st' hok hstk⟩

/-- Witness for C2 (amended) at a concrete non-panicking handler. -/
theorem logger15_one_record_witness :
    (nopHandler (mkReq "") { hstate0 with rw := rw0 } = HOut.ok hstate0) ∧
    (500 ≤ hstate0.rw.status.getD 0 → stackEnvOK (hstate0.env "stack") = true) ∧
    (∃ ctx, Logger15 "1ms" (mkReq "") nopHandler hstate0 =
      HOut.ok (HState.mk hstate0.env (mergeRW hstate0.rw hstate0.rw)
        (hstate0.logs ++ [LogRecord.mk (lvlOf (hstate0.rw.status.getD 0)) (mkReq "").path ctx]))) :=
  ⟨rfl, by decide,
   logger15_one_record "1ms" (mkReq "") nopHandler hstate0 hstate0 rfl (by decide)⟩

/-- Counterexample for C2 as stated: a request whose handler panics is
processed by the Logger15 middleware but no log record is emitted — the
panic propagates out before the logging code runs, so it is not the case
that every request yields exactly one record. -/
theorem logger15_cex :
    (∃ st2, Logger15 "0s" (mkReq "") panicH hstate0 = HOut.panicked "boom" st2) ∧
    hoLogs (Logger15 "0s" (mkReq "") panicH hstate0) = [] :=
  ⟨⟨_, rfl⟩, rfl⟩

/-- C7: on a form-parse error the FormParser middleware responds 400 with
the parse error's message, records it in c.Env["err"], and does not invoke
the next handler (its result does not depend on it); on success it invokes
the next handler untouched and writes nothing; and under Logger15 the
failing case yields one Warn record whose context carries ("err", message). -/
theorem formParser_spec :
    (∀ (r : Request) (h h' : Handler) (st : HState) (m : String), r.formErr = some m →
      FormParser r h st = FormParser r h' st ∧
      ∃ st2, FormParser r h st = HOut.ok st2 ∧
        st2.env "err" = some (GoVal.str m) ∧
        st2.rw.body = st.rw.body ++ (m ++ "\n") ∧
        (st.rw.status = none → st2.rw.status = some 400)) ∧
    (∀ (r : Request) (h : Handler) (st : HState), r.formErr = none →
      FormParser r h st = h r st) ∧
    (∀ (elapsed : String) (r : Request) (h : Handler) (st : HState) (m : String),
      r.formErr = some m →
      ∃ st3 ctx, Logger15 elapsed r (fun rq s => FormParser rq h s) st = HOut.ok st3 ∧
        st3.logs = st.logs ++ [LogRecord.mk Lvl.warn r.path ctx] ∧ ("err", m) ∈ ctx) := by
  refine ⟨?_, ?_, ?_⟩
  · intro r h h' st m hm
    constructor
    · simp [FormParser, hm]
    · refine ⟨HState.mk (ErrorString st.env st.rw 400 m).1 (ErrorString st.env st.rw 400 m).2
        st.logs, by simp [FormParser, hm], ?_, ?_, ?_⟩
      · simp [errorString_env, envSet_self]
      · simp [errorString_rw_lt st.env st.rw 400 m (by omega), httpError_body]
      · intro h0
        simp [errorString_rw_lt st.env st.rw 400 m (by omega), httpError_status_none _ _ _ h0]
  · intro r h st hm
    simp [FormParser, hm]
  · intro elapsed r h st m hm
    have henv : (ErrorString st.env rw0 400 m).1 = envSet st.env "err" (GoVal.str m) :=
      errorString_env _ _ _ _
    have hrw : (ErrorString st.env rw0 400 m).2 = httpError rw0 m 400 :=
      errorString_rw_lt _ _ _ _ (by omega)
    have hok : (fun rq s => FormParser rq h s) r { st with rw := rw0 } =
        HOut.ok (HState.mk (ErrorString st.env rw0 400 m).1 (ErrorString st.env rw0 400 m).2 st.logs) := by
      simp [FormParser, hm]
    have hstat : (HState.mk (ErrorString st.env rw0 400 m).1 (ErrorString st.env rw0 400 m).2
        st.logs).rw.status.getD 0 = 400 := by
      simp only [hrw]
      rw [httpError_status_none rw0 m 400 rfl]
      rfl
    have hlog := logger15_run elapsed r (fun rq s => FormParser rq h s) st
      (HState.mk (ErrorString st.env rw0 400 m).1 (ErrorString st.env rw0 400 m).2 st.logs)
      hok (by rw [hstat]; omega)
    rw [hstat] at hlog
    refine ⟨_, reqCtx r st.env ++ respCtx elapsed 400
        (HState.mk (ErrorString st.env rw0 400 m).1 (ErrorString st.env rw0 400 m).2 st.logs).env ++
        critExtra 400
        ((HState.mk (ErrorString st.env rw0 400 m).1 (ErrorString st.env rw0 400 m).2 st.logs).env
          "stack"), hlog, ?_, ?_⟩
    · simp [lvlOf]
    · simp only [henv]
      simp [respCtx, envSet, critExtra]

/-- Witness for C7 at a concrete failing form parse. -/
theorem formParser_spec_witness :
    (reqF.formErr = some "bad form") ∧
    (FormParser reqF nopHandler hstate0 = FormParser reqF markH hstate0 ∧
     ∃ st2, FormParser reqF nopHandler hstate0 = HOut.ok st2 ∧
       st2.env "err" = some (GoVal.str "bad form") ∧
       st2.rw.body = hstate0.rw.body ++ ("bad form" ++ "\n") ∧
       (hstate0.rw.status = none → st2.rw.status = some 400)) :=
  ⟨rfl, formParser_spec.1 reqF nopHandler markH hstate0 "bad form" rfl⟩

/- Lemmas about EnvAdd. -/

theorem envAdd_foldl_notmem (m : List (String × GoVal)) : ∀ (e : Env) (k : String),
    k ∉ m.map Prod.fst → (m.foldl (fun e kv => envSet e kv.1 kv.2) e) k = e k := by
  induction m with
  | nil => intro e k _; rfl
  | cons kv rest ih =>
    intro e k hk
    simp only [List.map_cons, List.mem_cons, not_or] at hk
    simp only [List.foldl_cons]
    rw [ih _ k hk.2]
    exact envSet_ne e kv.1 k kv.2 hk.1

theorem envAdd_foldl_mem (m : List (String × GoVal)) : ∀ (e : Env) (k : String) (v : GoVal),
    (m.map Prod.fst).Nodup → (k, v) ∈ m →
    (m.foldl (fun e kv => envSet e kv.1 kv.2) e) k = some v := by
  induction m with
  | nil =>
    intro e k v _ hm
    simp at hm
  | cons kv rest ih =>
    intro e k v hnd hm
    rw [List.map_cons] at hnd
    have hnd' := List.nodup_cons.mp hnd
    simp only [List.foldl_cons]
    rcases List.mem_cons.mp hm with heq | hmem
    · have hk1 : k = kv.1 := by rw [← heq]
      have hknot : k ∉ rest.map Prod.fst := by rw [hk1]; exact hnd'.1
      rw [envAdd_foldl_notmem rest _ k hknot]
      rw [← heq]
      exact envSet_self e k v
    · exact ih _ k v hnd'.2 hmem

/-- C9: for every (duplicate-free) map m and every request, the middleware
produced by EnvAdd(m) invokes the next handler with an environment in which
every key of m holds its m-value and every other key is unchanged. -/
theorem envAdd_frame (m : List (String × GoVal)) (r : Request) (h : Handler) (st : HState)
    (hnd : (m.map Prod.fst).Nodup) :
    ∃ env2, EnvAdd m r h st = h r { st with env := env2 } ∧
      (∀ k v, (k, v) ∈ m → env2 k = some v) ∧
      (∀ k, k ∉ m.map Prod.fst → env2 k = st.env k) :=
  ⟨_, rfl, fun k v hm => envAdd_foldl_mem m st.env k v hnd hm,
    fun k hk => envAdd_foldl_notmem m st.env k hk⟩

theorem errorString_status_400 (env : Env) (rw : RW) (s : String) (h0 : rw.status = none) :
    (ErrorString env rw 400 s).2.status = some 400 := by
  rw [errorString_rw_lt env rw 400 s (by omega)]
  exact httpError_status_none rw s 400 h0

/-- C6 (amended): for every request whose body is absent (the JSON decoder
reports EOF), whose content-length header is absent or parses to zero, and
whose content-type header is absent or exactly application/json, GetJSONBody
writes no error response, stores the nil decoded value in c.Env["json"], and
invokes the next handler; and for every request whose body fails to decode
as JSON, or whose content-length parses to a non-zero value while the body
is empty, it writes an HTTP 400 response (when no status has been written
yet) and does not invoke the next handler (its result does not depend on
it).  The content-type condition is the amendment: a bodyless request whose
content-type differs from application/json is rejected with 400 before the
body is examined. -/
theorem getJSONBody_spec :
    (∀ (r : Request) (h : Handler) (st : HState),
      r.jsonDecode = DecodeResult.eof →
      (r.headers "content-length" = "" ∨ goAtoi (r.headers "content-length") = some 0) →
      (r.headers "content-type" = "" ∨ r.headers "content-type" = "application/json") →
      GetJSONBody r h st = h r { st with env := envSet st.env "json" (GoVal.jsonV none) }) ∧
    (∀ (r : Request) (h h' : Handler) (st : HState),
      ((∃ m, r.jsonDecode = DecodeResult.fail m) ∨
       (r.jsonDecode = DecodeResult.eof ∧
        ∃ n, goAtoi (r.headers "content-length") = some n ∧ n ≠ 0)) →
      GetJSONBody r h st = GetJSONBody r h' st ∧
      (st.rw.status = none → (hoState (GetJSONBody r h st)).rw.status = some 400)) := by
  constructor
  · intro r h st hdec hcl hct
    have hcl0 : (if r.headers "content-length" = "" then some (0 : Int)
        else goAtoi (r.headers "content-length")) = some 0 := by
      by_cases he : r.headers "content-length" = ""
      · rw [if_pos he]
      · rw [if_neg he]
        rcases hcl with hc | hc
        · exact absurd hc he
        · exact hc
    have hctF : ¬(r.headers "content-type" ≠ "" ∧
        r.headers "content-type" ≠ "application/json") := by
      rcases hct with hc | hc <;> simp [hc]
    simp only [GetJSONBody, hcl0, hdec]
    rw [if_neg hctF]
    simp
  · intro r h h' st hb
    by_cases he : r.headers "content-length" = ""
    · have hsome : (if r.headers "content-length" = "" then some (0 : Int)
          else goAtoi (r.headers "content-length")) = some 0 := by rw [if_pos he]
      have hb' : ∃ m, r.jsonDecode = DecodeResult.fail m := by
        rcases hb with hf | ⟨_, n, hn, _⟩
        · exact hf
        · rw [he] at hn
          have hnone : goAtoi "" = none := by decide
          rw [hnone] at hn
          cases hn
      obtain ⟨m, hm⟩ := hb'
      by_cases hct : r.headers "content-type" ≠ "" ∧
          r.headers "content-type" ≠ "application/json"
      · refine ⟨?_, ?_⟩
        · simp only [GetJSONBody, hsome, if_pos hct]
        · intro h0
          simp only [GetJSONBody, hsome, if_pos hct, hoState]
          exact errorString_status_400 _ _ _ h0
      · refine ⟨?_, ?_⟩
        · simp only [GetJSONBody, hsome, hm, if_neg hct]
        · intro h0
          simp only [GetJSONBody, hsome, hm, if_neg hct, hoState]
          exact errorString_status_400 _ _ _ h0
    · cases hA : goAtoi (r.headers "content-length") with
      | none =>
        have hsome : (if r.headers "content-length" = "" then some (0 : Int)
            else goAtoi (r.headers "content-length")) = none := by rw [if_neg he, hA]
        refine ⟨?_, ?_⟩
        · simp only [GetJSONBody, hsome]
        · intro h0
          simp only [GetJSONBody, hsome, hoState]
          exact errorString_status_400 _ _ _ h0
      | some n0 =>
        have hsome : (if r.headers "content-length" = "" then some (0 : Int)
            else goAtoi (r.headers "content-length")) = some n0 := by rw [if_neg he, hA]
        by_cases hct : r.headers "content-type" ≠ "" ∧
            r.headers "content-type" ≠ "application/json"
        · refine ⟨?_, ?_⟩
          · simp only [GetJSONBody, hsome, if_pos hct]
          · intro h0
            simp only [GetJSONBody, hsome, if_pos hct, hoState]
            exact errorString_status_400 _ _ _ h0
        · rcases hb with ⟨m, hm⟩ | ⟨hdec, n, hn, hnz⟩
          · refine ⟨?_, ?_⟩
            · simp only [GetJSONBody, hsome, hm, if_neg hct]
            · intro h0
              simp only [GetJSONBody, hsome, hm, if_neg hct, hoState]
              exact errorString_status_400 _ _ _ h0
          · have hn0 : n0 = n := by
              rw [hA] at hn
              exact Option.some.inj hn
            subst hn0
            refine ⟨?_, ?_⟩
            · simp only [GetJSONBody, hsome, hdec, if_neg hct, if_pos hnz]
            · intro h0
              simp only [GetJSONBody, hsome, hdec, if_neg hct, if_pos hnz, hoState]
              exact errorString_status_400 _ _ _ h0

/-- Witness for C6 (amended) at a concrete bodyless request with no
content-length and no content-type. -/
theorem getJSONBody_spec_witness :
    ((mkReq "").jsonDecode = DecodeResult.eof) ∧
    ((mkReq "").headers "content-length" = "" ∨
      goAtoi ((mkReq "").headers "content-length") = some 0) ∧
    ((mkReq "").headers "content-type" = "" ∨
      (mkReq "").headers "content-type" = "application/json") ∧
    GetJSONBody (mkReq "") markH hstate0 =
      markH (mkReq "") { hstate0 with env := envSet hstate0.env "json" (GoVal.jsonV none) } :=
  ⟨rfl, Or.inl (by decide), Or.inl (by decide),
   getJSONBody_spec.1 (mkReq "") markH hstate0 rfl (Or.inl (by decide)) (Or.inl (by decide))⟩

/-- Counterexample for C6 as stated: a request with an absent body (decoder
reports EOF) and no content-length header, but content-type text/plain, is
answered with HTTP 400 and the next handler is never invoked, contradicting
the unconditional tolerance of absent bodies. -/
theorem getJSONBody_cex :
    (reqCT.jsonDecode = DecodeResult.eof ∧ reqCT.headers "content-length" = "") ∧
    (hoState (GetJSONBody reqCT markH hstate0)).rw.status = some 400 ∧
    (hoState (GetJSONBody reqCT markH hstate0)).env "called" = none := by
  refine ⟨⟨rfl, by decide⟩, by decide, by decide⟩

/-- Witness for C9 at a concrete two-entry map. -/
theorem envAdd_frame_witness :
    (([("a", GoVal.str "x"), ("b", GoVal.str "y")].map Prod.fst).Nodup) ∧
    (∃ env2, EnvAdd [("a", GoVal.str "x"), ("b", GoVal.str "y")] (mkReq "") nopHandler hstate0 =
        nopHandler (mkReq "") { hstate0 with env := env2 } ∧
      (∀ k v, (k, v) ∈ [("a", GoVal.str "x"), ("b", GoVal.str "y")] → env2 k = some v) ∧
      (∀ k, k ∉ [("a", GoVal.str "x"), ("b", GoVal.str "y")].map Prod.fst →
        env2 k = hstate0.env k)) :=
  ⟨by decide,
   envAdd_frame [("a", GoVal.str "x"), ("b", GoVal.str "y")] (mkReq "") nopHandler hstate0 (by decide)⟩

end Gojiutil
